import Mathlib

/-!
Verification of the airport-simulation engine (`simulation.py`,
`uncertainty.py`) against its natural-language specification.

The Python sources are shallowly embedded as executable Lean definitions.
External collaborators that live outside the provided sources (the clock,
the airport physics container, node geometry, the random number generator,
the scheduler) are modelled from the spec; each such definition carries a
doc comment starting with `Modelled from the spec:`.
-/

namespace AirportSim

/-- Simulated time, in whole seconds. -/
abbrev Time := Nat

/-- Errors a tick can surface.  `endOfDay` is Python's `ClockException`,
`conflict` is `SimulationException("Conflict found")`, `nameError` and
`typeError` are the corresponding Python runtime errors. -/
inductive SimErr where
  | endOfDay
  | conflict
  | nameError
  | typeError
  deriving DecidableEq, Repr

/-- Kind of surface node an aircraft can be located at; mirrors the Python
classes `Gate`, `Spot` and other node kinds used by `isinstance` checks in
`uncertainty.py`. -/
inductive LocKind where
  | gate
  | spot
  | other
  deriving DecidableEq, Repr

/-- A surface location: its node class plus an identifier. -/
structure Loc where
  kind : LocKind
  id : Nat
  deriving DecidableEq, Repr

/-- An aircraft: callsign, current location, nominal speed (with any
injected bias folded in) and an optional itinerary (abstract id list). -/
structure Aircraft where
  callsign : Nat
  location : Loc
  speed : Rat
  itinerary : Option (List Nat)
  deriving DecidableEq, Repr

/-- Modelled from the spec: `aircraft.add_speed_uncertainty(bias)` applies
the sampled bias additively to the aircraft's nominal speed (the `Aircraft`
class is external to the provided sources). -/
def addSpeedUncertainty (a : Aircraft) (bias : Rat) : Aircraft :=
  { a with speed := a.speed + bias }

/-- A departure flight record (`asset2/flight.py`, `DepartureFlight`):
binds an aircraft to its origin gate, assigned runway start node and
appear time. -/
structure Flight where
  aircraft : Aircraft
  fromGate : Loc
  runwayStart : Loc
  appear_time : Time
  deriving DecidableEq, Repr

/-- The scenario: the departure flights, ordered as loaded. -/
structure Scenario where
  departures : List Flight
  deriving DecidableEq, Repr

/-- Modelled from the spec: `scenario.get_flight(aircraft)` returns the
originating flight of an aircraft (one aircraft per flight); the `Scenario`
class is external to the provided sources.  We look the flight up by the
aircraft's callsign. -/
def Scenario.get_flight (s : Scenario) (a : Aircraft) : Option Flight :=
  s.departures.find? (fun f => f.aircraft.callsign == a.callsign)

/-- The configuration parameters read by the embedded code
(`Config.params`). -/
structure Config where
  testMode : Bool
  rescheduleCycle : Nat
  uncEnabled : Bool
  probHold : Rat
  atGate : Bool
  atSpot : Bool
  atRunway : Bool
  deriving DecidableEq, Repr

/-- The uncertainty module's own state (`Uncertainty.__init__`,
uncertainty.py lines 13-17): hold probability and the Gaussian speed-bias
parameters. -/
structure UncMod where
  probHold : Rat
  speedBiasSigma : Rat
  speedBiasMu : Rat
  deriving DecidableEq, Repr

/-- Python call semantics for `Uncertainty.__init__`: it has exactly three
required positional parameters `(prob_hold, speed_bias_sigma,
speed_bias_mu)`; a call supplying any other number of positional arguments
raises `TypeError` before the body runs. -/
def callUncertaintyInit : List Rat → Except SimErr UncMod
  | [p, sg, mu] => .ok ⟨p, sg, mu⟩
  | _ => .error .typeError

/-- The trigger checks of `Uncertainty.inject` (uncertainty.py lines
27-43), evaluated left to right with Python's short-circuit `or`:
`__is_gate`, `__is_spot`, then `__is_runway`.  In the live code path the
name `runway_start` used by `__is_runway` is unbound (it is assigned only
inside the commented-out block), so whenever the `at_runway` toggle is on
and the runway check is actually evaluated, Python raises `NameError`. -/
def triggerCheck (cfg : Config) (a : Aircraft) : Except SimErr Bool :=
  if cfg.atGate && a.location.kind == .gate then .ok true
  else if cfg.atSpot && a.location.kind == .spot then .ok true
  else if cfg.atRunway then .error .nameError
  else .ok false

/-- `Uncertainty.inject` (uncertainty.py lines 19-85), embedded over the
list of active aircraft.  Randomness is supplied as oracle streams: `us`
holds the successive values of `random.random()` (one consumed per
aircraft), `gs` the successive values of `random.gauss(sigma, mu)` (one
consumed per applied bias).  Returns the aircraft list as left behind by
the loop (the prefix processed before any raise keeps its in-place
mutations), the unconsumed streams, and the Python error the loop raises,
if any. -/
def inject (cfg : Config) (m : UncMod) :
    List Rat → List Rat → List Aircraft →
    List Aircraft × List Rat × List Rat × Option SimErr
  | us, gs, [] => ([], us, gs, none)
  | us, gs, a :: rest =>
    let u := us.headD 0
    let us' := us.tail
    if ¬ (u < m.probHold) then
      let (l, u2, g2, e) := inject cfg m us' gs rest
      (addSpeedUncertainty a 0 :: l, u2, g2, e)
    else
      match triggerCheck cfg a with
      | .error e => (a :: rest, us', gs, some e)
      | .ok false =>
        let (l, u2, g2, e) := inject cfg m us' gs rest
        (a :: l, u2, g2, e)
      | .ok true =>
        if a.itinerary.isSome then
          let b := gs.headD 0
          let (l, u2, g2, e) := inject cfg m us' gs.tail rest
          (addSpeedUncertainty a b :: l, u2, g2, e)
        else
          let (l, u2, g2, e) := inject cfg m us' gs rest
          (a :: l, u2, g2, e)

/-- A conflict reported by the airport (pair of aircraft callsigns);
only its presence matters to the engine. -/
abbrev Conflict := Nat × Nat

/-- The airport state visible to the engine: the active aircraft, the
per-gate FIFO queues (`gate_queue`, a dict from gate to deque, kept here
as an association list in insertion order) and the current conflict
list. -/
structure Airport where
  aircrafts : List Aircraft
  gateQueue : List (Loc × List Aircraft)
  conflicts : List Conflict
  deriving DecidableEq, Repr

/-- Association-list lookup for the gate-queue dict. -/
def lookupQ : List (Loc × List Aircraft) → Loc → Option (List Aircraft)
  | [], _ => none
  | (g, q) :: rest, g' => if g = g' then some q else lookupQ rest g'

/-- Association-list assignment with Python-dict semantics: replacing an
existing key keeps its position, a new key is appended at the end
(insertion order). -/
def setQ : List (Loc × List Aircraft) → Loc → List Aircraft →
    List (Loc × List Aircraft)
  | [], g, q => [(g, q)]
  | (g0, q0) :: rest, g, q =>
    if g0 = g then (g, q) :: rest else (g0, q0) :: setQ rest g q

/-- Modelled from the spec: `airport.is_occupied_at(gate)` — whether some
active aircraft currently sits at that gate (the `Airport` class is
external to the provided sources). -/
def isOccupiedAt (ap : Airport) (g : Loc) : Bool :=
  ap.aircrafts.any (fun a => a.location == g)

/-- Modelled from the spec: `airport.add_aircraft(a)` places the aircraft
into the active set. -/
def addAircraft (ap : Airport) (a : Aircraft) : Airport :=
  { ap with aircrafts := ap.aircrafts ++ [a] }

/-- Modelled from the spec: `airport.remove_aircraft(a)` removes the
aircraft from the active set (first occurrence). -/
def removeAircraft (ap : Airport) (a : Aircraft) : Airport :=
  { ap with aircrafts := ap.aircrafts.erase a }

/-- Modelled from the spec: the Clock owns current simulated time and a
fixed per-tick duration (`clock.sim_time`), bounded by the simulation
horizon; `clock.py` is external to the provided sources. -/
structure Clock where
  now : Time
  simTime : Nat
  horizon : Time
  deriving DecidableEq, Repr

/-- Modelled from the spec: `clock.tick()` advances simulated time by the
fixed tick duration, and fails with EndOfDay (`ClockException`) when
advancing would exceed the configured horizon. -/
def Clock.tick (c : Clock) : Except SimErr Clock :=
  if c.horizon < c.now + c.simTime then .error .endOfDay
  else .ok { c with now := c.now + c.simTime }

/-- Modelled from the spec: `get_seconds_after(t, d)` (from the external
`utils` module) yields the simulated instant `d` seconds after `t`. -/
def get_seconds_after (t : Time) (d : Nat) : Time := t + d

/-- An immutable completed-itinerary record (`CompletedItinerary`),
created at removal time with the flight's appear time, the clock's
current time and the aircraft's itinerary. -/
structure CompletedItinerary where
  appear_time : Time
  removal_time : Time
  itinerary : Option (List Nat)
  deriving DecidableEq, Repr

/-- The mutable state of a `Simulation` (simulation.py lines 30-80):
clock, airport, scenario, optional uncertainty module, the last reschedule
instant and its measured execution time, and the completed-itinerary
log. -/
structure SimState where
  clock : Clock
  airport : Airport
  scenario : Scenario
  uncertainty : Option UncMod
  lastScheduleTime : Option Time
  lastScheduleExecTime : Option Nat
  completedItineraries : List CompletedItinerary
  deriving DecidableEq, Repr

/-- The external world a tick interacts with: the airport physics step,
node-closeness geometry, the scheduler's answer for this tick with its
measured wall-clock duration, and the random oracle streams. -/
structure Env where
  /-- Modelled from the spec: `airport.tick()` advances aircraft along
  their itineraries one step and refreshes the conflict list. -/
  physics : Airport → Airport
  /-- Modelled from the spec: `location.is_close_to(other)` — within
  tolerance of; node geometry is external to the provided sources. -/
  closeTo : Loc → Loc → Bool
  /-- The schedule value the external scheduler returns this tick. -/
  schedule : Nat
  /-- Modelled from the spec: `airport.apply_schedule(schedule)`. -/
  applySched : Nat → Airport → Airport
  /-- The measured wall-clock duration of the scheduler run (seconds). -/
  execTime : Nat
  /-- Oracle stream for `random.random()`. -/
  us : List Rat
  /-- Oracle stream for `random.gauss(sigma, mu)`. -/
  gs : List Rat

/-- `Simulation.__is_time_to_reschedule` (simulation.py lines 142-147):
true when no schedule was ever computed, or when the instant one
reschedule cycle after the last reschedule has been reached. -/
def isTimeToReschedule (cfg : Config) (s : SimState) : Bool :=
  match s.lastScheduleTime with
  | none => true
  | some t => decide (get_seconds_after t cfg.rescheduleCycle ≤ s.clock.now)

/-- The loop of `Simulation.__add_aircrafts_from_queue` (simulation.py
lines 159-169): iterate the gate-queue dict in order; skip a gate that is
occupied or whose queue is empty, otherwise pop the queue's head, set its
location to the gate and add it to the airport.  Occupancy is checked
against the aircraft list as already extended by earlier iterations, as
in the Python loop. -/
def addFromQueueLoop : List (Loc × List Aircraft) → List Aircraft →
    List (Loc × List Aircraft) × List Aircraft
  | [], acs => ([], acs)
  | (g, q) :: rest, acs =>
    match q with
    | [] =>
      ((g, []) :: (addFromQueueLoop rest acs).1, (addFromQueueLoop rest acs).2)
    | a :: q' =>
      if acs.any (fun x => x.location == g) then
        ((g, a :: q') :: (addFromQueueLoop rest acs).1,
         (addFromQueueLoop rest acs).2)
      else
        ((g, q') ::
           (addFromQueueLoop rest (acs ++ [{ a with location := g }])).1,
         (addFromQueueLoop rest (acs ++ [{ a with location := g }])).2)

/-- `Simulation.__add_aircrafts_from_queue` as an airport transformer. -/
def addAircraftsFromQueue (ap : Airport) : Airport :=
  let (gq, acs) := addFromQueueLoop ap.gateQueue ap.aircrafts
  { ap with gateQueue := gq, aircrafts := acs }

/-- Appending an aircraft to a gate's queue (simulation.py lines 186-190):
`gate_queue.get(gate, deque())`, append, assign back. -/
def pushGateQueue (ap : Airport) (g : Loc) (a : Aircraft) : Airport :=
  let q := (lookupQ ap.gateQueue g).getD []
  { ap with gateQueue := setQ ap.gateQueue g (q ++ [a]) }

/-- One iteration of the loop of `Simulation.__add_aircrafts_from_scenario`
(simulation.py lines 177-197): a departure flight is considered only when
`now <= appear_time < next_tick_time`; it is queued when its gate is
occupied and admitted at the gate otherwise. -/
def admitStep (now next : Time) (ap : Airport) (f : Flight) : Airport :=
  if now ≤ f.appear_time ∧ f.appear_time < next then
    if isOccupiedAt ap f.fromGate then
      pushGateQueue ap f.fromGate f.aircraft
    else
      addAircraft ap { f.aircraft with location := f.fromGate }
  else ap

/-- `Simulation.__add_aircrafts_from_scenario` (simulation.py lines
171-197): fold `admitStep` over the departures in order. -/
def addAircraftsFromScenario (now next : Time) (scen : Scenario)
    (ap : Airport) : Airport :=
  scen.departures.foldl (admitStep now next) ap

/-- `Simulation.__add_aircrafts` (simulation.py lines 155-157): queue
admission first, then scenario admission. -/
def addAircrafts (s : SimState) : SimState :=
  let ap1 := addAircraftsFromQueue s.airport
  let next := get_seconds_after s.clock.now s.clock.simTime
  { s with airport := addAircraftsFromScenario s.clock.now next s.scenario ap1 }

/-- The removal predicate of `Simulation.__remove_aircrafts` (simulation.py
lines 207-211): the aircraft's location is close to its flight's runway
start.  An aircraft with no flight in the scenario is never selected here
(in the source, `get_flight` is total for active aircraft: one aircraft
per flight). -/
def shouldRemove (env : Env) (scen : Scenario) (a : Aircraft) : Bool :=
  match scen.get_flight a with
  | some f => env.closeTo a.location f.runwayStart
  | none => false

/-- One removal (simulation.py lines 213-220): append the completed
itinerary `{flight.appear_time, now, aircraft.itinerary}` and remove the
aircraft from the airport.  The `none` branch is unreachable for aircraft
selected by `shouldRemove`. -/
def removeOne (st : SimState) (a : Aircraft) : SimState :=
  match st.scenario.get_flight a with
  | some f =>
    { st with
      completedItineraries := st.completedItineraries ++
        [⟨f.appear_time, st.clock.now, a.itinerary⟩],
      airport := removeAircraft st.airport a }
  | none => st

/-- `Simulation.__remove_aircrafts` (simulation.py lines 199-220): the
batch of aircraft to remove is computed over the active list first, then
each is removed. -/
def removeAircrafts (env : Env) (s : SimState) : SimState :=
  let toRemove := s.airport.aircrafts.filter (shouldRemove env s.scenario)
  toRemove.foldl removeOne s

/-- The externally visible steps a tick executes, emitted in program
order.  The nine pipeline stages of `tick()` are main stages; the entries
`rescheduleRun`, `rescheduleObserve`, `analystSave` and `logSave` record
the conditional calls made inside a stage or inside the `ClockException`
handler. -/
inductive Stage where
  | rescheduleCheck
  | rescheduleRun
  | rescheduleObserve
  | uncertaintyInjection
  | admission
  | physicsTick
  | stateLogging
  | removal
  | clockAdvance
  | conflictCheck
  | observation
  | analystSave
  | logSave
  deriving DecidableEq, Repr

/-- Whether a trace entry is one of the nine pipeline stages of `tick()`
(rather than a call made inside a stage or an error handler). -/
def Stage.isMain : Stage → Bool
  | .rescheduleRun => false
  | .rescheduleObserve => false
  | .analystSave => false
  | .logSave => false
  | _ => true

/-- Result of a tick: the state the engine object is left in, the trace of
executed steps, and the error surfaced to the caller, if any. -/
structure TickR where
  s : SimState
  trace : List Stage
  err : Option SimErr
  deriving DecidableEq, Repr

/-- The reschedule body (simulation.py lines 88-95 and 149-153): call the
scheduler, apply the returned schedule to the airport, observe the
reschedule unless in test mode, record the measured execution time and
set the last reschedule instant to the current time. -/
def reschedule (cfg : Config) (env : Env) (s : SimState) :
    SimState × List Stage :=
  let s' := { s with
    airport := env.applySched env.schedule s.airport,
    lastScheduleExecTime := some env.execTime,
    lastScheduleTime := some s.clock.now }
  (s', [.rescheduleRun] ++ (if cfg.testMode then [] else [.rescheduleObserve]))

/-- Stage 1 of `Simulation.tick` (simulation.py lines 86-95): run the
reschedule body when it is time to, otherwise leave the state alone. -/
def rescheduleStep (cfg : Config) (env : Env) (s : SimState) :
    SimState × List Stage :=
  if isTimeToReschedule cfg s then reschedule cfg env s else (s, [])

/-- Stages 1-2 of `Simulation.tick` (simulation.py lines 86-99): the
reschedule check, then uncertainty injection when a module is present.
Returns the state, the trace so far, and the error the injection raised,
if any. -/
def tickPre (cfg : Config) (env : Env) (s : SimState) :
    SimState × List Stage × Option SimErr :=
  let s1 := (rescheduleStep cfg env s).1
  let tr2 := [Stage.rescheduleCheck] ++ (rescheduleStep cfg env s).2 ++
    [.uncertaintyInjection]
  match s1.uncertainty with
  | none => (s1, tr2, none)
  | some m =>
    let r := inject cfg m env.us env.gs s1.airport.aircrafts
    ({ s1 with airport := { s1.airport with aircrafts := r.1 } }, tr2, r.2.2.2)

/-- Stages 3-6 of `Simulation.tick` (simulation.py lines 101-106):
admission, airport physics, state logging (unless test mode), removal. -/
def tickMid (cfg : Config) (env : Env) (s2 : SimState) :
    SimState × List Stage :=
  let s3 := addAircrafts s2
  let s4 := { s3 with airport := env.physics s3.airport }
  (removeAircrafts env s4,
   [Stage.admission, .physicsTick] ++
     (if cfg.testMode then [] else [.stateLogging]) ++ [.removal])

/-- Stages 7-9 of `Simulation.tick` (simulation.py lines 107-124): clock
advance, conflict check, observation (unless test mode), plus the
`ClockException` handler that saves the analyst and the state log (unless
test mode) before re-raising. -/
def tickFinish (cfg : Config) (s6 : SimState) :
    SimState × List Stage × Option SimErr :=
  match Clock.tick s6.clock with
  | .error _ =>
    (s6,
     [Stage.clockAdvance] ++
       (if cfg.testMode then [] else [.analystSave, .logSave]),
     some .endOfDay)
  | .ok c =>
    let s7 := { s6 with clock := c }
    if 0 < s7.airport.conflicts.length then
      (s7, [Stage.clockAdvance, .conflictCheck], some .conflict)
    else
      (s7,
       [Stage.clockAdvance, .conflictCheck] ++
         (if cfg.testMode then [] else [.observation]),
       none)

/-- `Simulation.tick` (simulation.py lines 82-127), the composition of the
three phases: an error raised by uncertainty injection aborts before
admission and is re-raised (the generic `except Exception` handler); the
errors of the final phase are re-raised as well. -/
def tick (cfg : Config) (env : Env) (s : SimState) : TickR :=
  let p := tickPre cfg env s
  match p.2.2 with
  | some e => ⟨p.1, p.2.1, some e⟩
  | none =>
    let m := tickMid cfg env p.1
    let f := tickFinish cfg m.1
    ⟨f.1, p.2.1 ++ m.2 ++ f.2.1, f.2.2⟩

/-- `Simulation.quiet_tick` (simulation.py lines 129-140): admission,
airport physics, removal, clock advance; a `ClockException` is
re-raised. -/
def quietTick (env : Env) (s : SimState) : TickR :=
  let s1 := addAircrafts s
  let s2 := { s1 with airport := env.physics s1.airport }
  let s3 := removeAircrafts env s2
  let tr : List Stage := [.admission, .physicsTick, .removal, .clockAdvance]
  match Clock.tick s3.clock with
  | .error _ => ⟨s3, tr, some .endOfDay⟩
  | .ok c => ⟨{ s3 with clock := c }, tr, none⟩

/-- The uncertainty-module construction inside `Simulation.__init__`
(simulation.py lines 53-55): when uncertainty is enabled, call
`Uncertainty(prob_hold)` — a single positional argument. -/
def mkUncertainty (cfg : Config) : Except SimErr (Option UncMod) :=
  if cfg.uncEnabled then
    match callUncertaintyInit [cfg.probHold] with
    | .error e => .error e
    | .ok m => .ok (some m)
  else
    .ok none

/-- `Simulation.__init__` (simulation.py lines 30-80), restricted to the
state the embedding tracks: the clock, airport and scenario are built by
their external factories (supplied here as arguments), the uncertainty
module is constructed per `mkUncertainty`, and the last-reschedule
bookkeeping and completed-itinerary log start empty. -/
def mkSimulation (cfg : Config) (ck : Clock) (ap : Airport)
    (scen : Scenario) : Except SimErr SimState :=
  match mkUncertainty cfg with
  | .error e => .error e
  | .ok u =>
    .ok { clock := ck, airport := ap, scenario := scen, uncertainty := u,
          lastScheduleTime := none, lastScheduleExecTime := none,
          completedItineraries := [] }

/-- An object heap for reasoning about aliasing between a live engine and
its snapshots: airport and clock objects live at numbered addresses, and
`nextAddr` is the next fresh address.  Modelled from the spec: Python
`deepcopy` allocates fresh, fully independent objects for the copy. -/
structure Heap where
  airports : List (Nat × Airport)
  clocks : List (Nat × Clock)
  nextAddr : Nat
  deriving DecidableEq, Repr

/-- A `Simulation` object as a holder of references into the heap, plus
the fields `SimulationDelegate.copy` rebinds directly: the uncertainty
module and whether logging has been silenced by `set_quiet`. -/
structure EngineRef where
  airportRef : Nat
  clockRef : Nat
  uncertainty : Option UncMod
  quiet : Bool
  deriving DecidableEq, Repr

/-- Read the airport object at an address. -/
def readA (h : Heap) (r : Nat) : Option Airport :=
  (h.airports.find? (fun p => p.1 == r)).map (fun p => p.2)

/-- Read the clock object at an address. -/
def readC (h : Heap) (r : Nat) : Option Clock :=
  (h.clocks.find? (fun p => p.1 == r)).map (fun p => p.2)

/-- Mutate the airport object at an address in place. -/
def writeA (h : Heap) (r : Nat) (v : Airport) : Heap :=
  { h with airports :=
      h.airports.map (fun p => if p.1 == r then (r, v) else p) }

/-- Mutate the clock object at an address in place. -/
def writeC (h : Heap) (r : Nat) (v : Clock) : Heap :=
  { h with clocks :=
      h.clocks.map (fun p => if p.1 == r then (r, v) else p) }

/-- A heap is well formed when every allocated address is below
`nextAddr`. -/
def Heap.WF (h : Heap) : Prop :=
  (∀ p ∈ h.airports, p.1 < h.nextAddr) ∧ (∀ p ∈ h.clocks, p.1 < h.nextAddr)

/-- An engine reference is live in a heap when its component addresses
hold objects. -/
def EngineRef.Live (e : EngineRef) (h : Heap) : Prop :=
  (readA h e.airportRef).isSome ∧ (readC h e.clockRef).isSome

/-- `SimulationDelegate.copy` (simulation.py lines 280-292) over the heap
model: `deepcopy` reads the engine's airport and clock and re-allocates
them at fresh addresses (pickling via `__getstate__`, simulation.py lines
230-234, drops the logger and nulls the uncertainty module); then the
copy's uncertainty module is set to the supplied one (`uncertainty=None`
by default) and the copy is silenced with `set_quiet`. -/
def delegateCopy (h : Heap) (e : EngineRef) (u : Option UncMod) :
    Heap × EngineRef :=
  let apv := (readA h e.airportRef).getD ⟨[], [], []⟩
  let ckv := (readC h e.clockRef).getD ⟨0, 0, 0⟩
  let a1 := h.nextAddr
  let a2 := h.nextAddr + 1
  (⟨h.airports ++ [(a1, apv)], h.clocks ++ [(a2, ckv)], h.nextAddr + 2⟩,
   { airportRef := a1, clockRef := a2, uncertainty := u, quiet := true })

/-- The completed-itinerary record that removing aircraft `a` at clock
time `t` produces (simulation.py lines 215-219); used to state the removal
theorems.  The `none` branch is unreachable for removed aircraft. -/
def itinRecord (scen : Scenario) (t : Time) (a : Aircraft) :
    CompletedItinerary :=
  match scen.get_flight a with
  | some f => ⟨f.appear_time, t, a.itinerary⟩
  | none => ⟨0, t, a.itinerary⟩

/-! Concrete fixtures used by counterexamples and witnesses. -/

/-- A gate location. -/
def gate1 : Loc := ⟨.gate, 1⟩

/-- A second gate location. -/
def gate2 : Loc := ⟨.gate, 2⟩

/-- A runway-start node. -/
def rwy1 : Loc := ⟨.other, 90⟩

/-- An aircraft parked at a non-gate, non-spot node. -/
def acOther : Aircraft := ⟨7, ⟨.other, 3⟩, 10, some [1]⟩

/-- An aircraft currently at its runway start. -/
def acAtRwy : Aircraft := ⟨8, rwy1, 10, some [2]⟩

/-- An aircraft waiting in a gate queue. -/
def acQueued : Aircraft := ⟨9, ⟨.other, 0⟩, 10, none⟩

/-- A second queued aircraft, behind `acQueued`. -/
def acQueued2 : Aircraft := ⟨10, ⟨.other, 0⟩, 10, none⟩

/-- A departure flight for `acAtRwy` out of `gate2` onto `rwy1`. -/
def flight1 : Flight := ⟨acAtRwy, gate2, rwy1, 20⟩

/-- Test-mode configuration, uncertainty disabled. -/
def cfgTest : Config := ⟨true, 60, false, 1, false, false, false⟩

/-- Full (non-test) configuration, uncertainty disabled. -/
def cfgFull : Config := ⟨false, 60, false, 1, false, false, false⟩

/-- Configuration with uncertainty enabled (any parameter values). -/
def cfgUncOn : Config := ⟨false, 60, true, 1 / 2, true, true, true⟩

/-- Configuration under which `inject` reaches the runway trigger check:
hold probability 1 and only the `at_runway` toggle enabled. -/
def cfgAtRunway : Config := ⟨true, 0, true, 1, false, false, true⟩

/-- An uncertainty module with hold probability 1. -/
def uncHold : UncMod := ⟨1, 0, 0⟩

/-- An environment whose physics step reports a conflict and whose
closeness test is node equality. -/
def envConflict : Env :=
  { physics := fun ap => { ap with conflicts := [(1, 2)] }
    closeTo := fun a b => a == b
    schedule := 0
    applySched := fun _ ap => ap
    execTime := 3
    us := []
    gs := [] }

/-- An inert environment: physics moves nothing and reports no
conflicts. -/
def envId : Env :=
  { physics := fun ap => ap
    closeTo := fun a b => a == b
    schedule := 0
    applySched := fun _ ap => ap
    execTime := 3
    us := []
    gs := [] }

/-- An engine state whose next clock advance would pass the horizon. -/
def sHorizon : SimState :=
  { clock := ⟨10, 5, 12⟩
    airport := ⟨[], [], []⟩
    scenario := ⟨[]⟩
    uncertainty := none
    lastScheduleTime := some 0
    lastScheduleExecTime := none
    completedItineraries := [] }

/-- An engine state with plenty of day left and no schedule yet. -/
def sRun : SimState :=
  { clock := ⟨0, 5, 100⟩
    airport := ⟨[], [], []⟩
    scenario := ⟨[]⟩
    uncertainty := none
    lastScheduleTime := none
    lastScheduleExecTime := none
    completedItineraries := [] }

/-- An engine state exercising admission and removal: `acAtRwy` is active
and sitting at its runway start, `acQueued` and `acQueued2` wait at
`gate1` in that order, and `flight1` appears at time 20. -/
def sBusy : SimState :=
  { clock := ⟨20, 5, 100⟩
    airport := ⟨[acAtRwy], [(gate1, [acQueued, acQueued2])], []⟩
    scenario := ⟨[flight1]⟩
    uncertainty := none
    lastScheduleTime := some 0
    lastScheduleExecTime := none
    completedItineraries := [] }

/-- A two-object heap holding one airport and one clock. -/
def heap0 : Heap :=
  ⟨[(0, ⟨[acOther], [], []⟩)], [(1, ⟨0, 5, 100⟩)], 2⟩

/-- An engine reference into `heap0`. -/
def eng0 : EngineRef := ⟨0, 1, none, false⟩

/-! ## Theorems -/

/-- Claim C10 — for every configuration with the uncertainty module enabled,
constructing a `Simulation` fails with `TypeError` (the engine passes one
positional argument to `Uncertainty.__init__`, which requires three), and
no successfully constructed engine holds a live uncertainty module. -/
theorem uncertainty_init_typeError (cfg : Config) (ck : Clock)
    (ap : Airport) (scen : Scenario) :
    (cfg.uncEnabled = true →
       mkSimulation cfg ck ap scen = .error .typeError) ∧
    (∀ s, mkSimulation cfg ck ap scen = .ok s → s.uncertainty = none) := by
  constructor
  · intro h
    simp [mkSimulation, mkUncertainty, h, callUncertaintyInit]
  · intro s hs
    unfold mkSimulation mkUncertainty at hs
    by_cases h : cfg.uncEnabled
    · simp [h, callUncertaintyInit] at hs
    · simp [h] at hs
      rw [← hs]

theorem uncertainty_init_typeError_witness :
    cfgUncOn.uncEnabled = true ∧
    mkSimulation cfgUncOn ⟨0, 5, 100⟩ ⟨[], [], []⟩ ⟨[]⟩ =
      .error .typeError :=
  ⟨rfl, (uncertainty_init_typeError cfgUncOn ⟨0, 5, 100⟩ ⟨[], [], []⟩
    ⟨[]⟩).1 rfl⟩

/-- Claim C8 — evaluating the code at the failing input.  With only the
`at_runway` trigger enabled, hold probability 1 (so the uniform draw 0
falls below it) and an aircraft that is at neither a gate nor a spot, the
inject loop raises `NameError` (the live code reads the unbound name
`runway_start`) instead of evaluating the approaching-runway trigger and
applying a Gaussian speed bias as the claim describes. -/
theorem inject_runway_nameError :
    inject cfgAtRunway uncHold [0] [] [acOther] =
      ([acOther], [], [], some SimErr.nameError) := by rfl

/-- Claim C5, counterexample — a state in which the airport reports a
conflict after the physics step but the clock advance signals end of day:
`tick` raises EndOfDay, not SimulationConflict, so the claimed "if and
only if" fails. -/
theorem conflict_iff_counterexample :
    0 < (tick cfgTest envConflict sHorizon).s.airport.conflicts.length ∧
    (tick cfgTest envConflict sHorizon).err = some SimErr.endOfDay ∧
    (tick cfgTest envConflict sHorizon).err ≠ some SimErr.conflict := by
  exact ⟨by decide, by rfl, by decide⟩

theorem rescheduleStep_uncertainty (cfg : Config) (env : Env) (s : SimState) :
    (rescheduleStep cfg env s).1.uncertainty = s.uncertainty := by
  unfold rescheduleStep reschedule
  split <;> rfl

theorem rescheduleStep_clock (cfg : Config) (env : Env) (s : SimState) :
    (rescheduleStep cfg env s).1.clock = s.clock := by
  unfold rescheduleStep reschedule
  split <;> rfl

theorem rescheduleStep_scenario (cfg : Config) (env : Env) (s : SimState) :
    (rescheduleStep cfg env s).1.scenario = s.scenario := by
  unfold rescheduleStep reschedule
  split <;> rfl

theorem rescheduleStep_completed (cfg : Config) (env : Env) (s : SimState) :
    (rescheduleStep cfg env s).1.completedItineraries =
      s.completedItineraries := by
  unfold rescheduleStep reschedule
  split <;> rfl

theorem rescheduleStep_lastSched (cfg : Config) (env : Env) (s : SimState) :
    (rescheduleStep cfg env s).1.lastScheduleTime =
      (if isTimeToReschedule cfg s then some s.clock.now
       else s.lastScheduleTime) := by
  unfold rescheduleStep reschedule
  split <;> rfl

theorem rescheduleStep_trace_mem (cfg : Config) (env : Env) (s : SimState)
    (x : Stage) (hx : x ∈ (rescheduleStep cfg env s).2) :
    x = Stage.rescheduleRun ∨ x = Stage.rescheduleObserve := by
  unfold rescheduleStep reschedule at hx
  split at hx
  · simp at hx
    rcases hx with h1 | ⟨_, h2⟩
    · exact Or.inl h1
    · exact Or.inr h2
  · simp at hx

theorem rescheduleStep_run_iff (cfg : Config) (env : Env) (s : SimState) :
    Stage.rescheduleRun ∈ (rescheduleStep cfg env s).2 ↔
      isTimeToReschedule cfg s = true := by
  unfold rescheduleStep reschedule
  split <;> rename_i hc <;> simp [hc]

theorem rescheduleStep_filter (cfg : Config) (env : Env) (s : SimState) :
    ((rescheduleStep cfg env s).2).filter Stage.isMain = [] := by
  unfold rescheduleStep reschedule
  split <;> rcases cfg.testMode with _ | _ <;> simp [Stage.isMain]

theorem tickPre_trace (cfg : Config) (env : Env) (s : SimState) :
    (tickPre cfg env s).2.1 =
      [Stage.rescheduleCheck] ++ (rescheduleStep cfg env s).2 ++
        [.uncertaintyInjection] := by
  cases h : (rescheduleStep cfg env s).1.uncertainty <;> simp [tickPre, h]

theorem tickPre_clock (cfg : Config) (env : Env) (s : SimState) :
    (tickPre cfg env s).1.clock = s.clock := by
  cases h : (rescheduleStep cfg env s).1.uncertainty <;>
    simp [tickPre, h, rescheduleStep_clock]

theorem tickPre_completed (cfg : Config) (env : Env) (s : SimState) :
    (tickPre cfg env s).1.completedItineraries = s.completedItineraries := by
  cases h : (rescheduleStep cfg env s).1.uncertainty <;>
    simp [tickPre, h, rescheduleStep_completed]

theorem tickPre_lastSched (cfg : Config) (env : Env) (s : SimState) :
    (tickPre cfg env s).1.lastScheduleTime =
      (if isTimeToReschedule cfg s then some s.clock.now
       else s.lastScheduleTime) := by
  cases h : (rescheduleStep cfg env s).1.uncertainty <;>
    simp [tickPre, h, rescheduleStep_lastSched]

theorem tickPre_none (cfg : Config) (env : Env) (s : SimState)
    (hu : s.uncertainty = none) :
    tickPre cfg env s =
      ((rescheduleStep cfg env s).1,
       [Stage.rescheduleCheck] ++ (rescheduleStep cfg env s).2 ++
         [.uncertaintyInjection],
       none) := by
  have h := rescheduleStep_uncertainty cfg env s
  rw [hu] at h
  simp [tickPre, h]



theorem removeOne_clock (st : SimState) (a : Aircraft) :
    (removeOne st a).clock = st.clock := by
  unfold removeOne
  cases st.scenario.get_flight a <;> rfl

theorem removeOne_scenario (st : SimState) (a : Aircraft) :
    (removeOne st a).scenario = st.scenario := by
  unfold removeOne
  cases st.scenario.get_flight a <;> rfl

theorem removeOne_lastSched (st : SimState) (a : Aircraft) :
    (removeOne st a).lastScheduleTime = st.lastScheduleTime := by
  unfold removeOne
  cases st.scenario.get_flight a <;> rfl

theorem fold_removeOne_clock (l : List Aircraft) (st : SimState) :
    (l.foldl removeOne st).clock = st.clock := by
  induction l generalizing st with
  | nil => rfl
  | cons a t ih => rw [List.foldl_cons, ih, removeOne_clock]

theorem fold_removeOne_scenario (l : List Aircraft) (st : SimState) :
    (l.foldl removeOne st).scenario = st.scenario := by
  induction l generalizing st with
  | nil => rfl
  | cons a t ih => rw [List.foldl_cons, ih, removeOne_scenario]

theorem fold_removeOne_lastSched (l : List Aircraft) (st : SimState) :
    (l.foldl removeOne st).lastScheduleTime = st.lastScheduleTime := by
  induction l generalizing st with
  | nil => rfl
  | cons a t ih => rw [List.foldl_cons, ih, removeOne_lastSched]

theorem fold_removeOne_completed_general (l : List Aircraft) (st : SimState) :
    ∃ ext, (l.foldl removeOne st).completedItineraries =
      st.completedItineraries ++ ext ∧
      ∀ r ∈ ext, r.removal_time = st.clock.now := by
  induction l generalizing st with
  | nil => exact ⟨[], by simp, by simp⟩
  | cons a t ih =>
    obtain ⟨ext, he, hr⟩ := ih (removeOne st a)
    rw [List.foldl_cons]
    cases hfa : st.scenario.get_flight a with
    | none =>
      refine ⟨ext, ?_, ?_⟩
      · rw [he]
        unfold removeOne
        rw [hfa]
      · intro r hrr
        have := hr r hrr
        rw [removeOne_clock] at this
        exact this
    | some f =>
      refine ⟨⟨f.appear_time, st.clock.now, a.itinerary⟩ :: ext, ?_, ?_⟩
      · rw [he]
        unfold removeOne
        rw [hfa]
        simp
      · intro r hrr
        rcases List.mem_cons.mp hrr with h1 | h2
        · rw [h1]
        · have := hr r h2
          rw [removeOne_clock] at this
          exact this

theorem fold_removeOne_completed_exact (l : List Aircraft) (st : SimState)
    (hf : ∀ a ∈ l, (st.scenario.get_flight a).isSome) :
    (l.foldl removeOne st).completedItineraries =
      st.completedItineraries ++
        l.map (itinRecord st.scenario st.clock.now) := by
  induction l generalizing st with
  | nil => simp
  | cons a t ih =>
    obtain ⟨f, hfa⟩ := Option.isSome_iff_exists.mp (hf a (by simp))
    have h1 : removeOne st a =
        { st with
          completedItineraries := st.completedItineraries ++
            [⟨f.appear_time, st.clock.now, a.itinerary⟩],
          airport := removeAircraft st.airport a } := by
      unfold removeOne
      rw [hfa]
    rw [List.foldl_cons, h1, ih]
    · simp [itinRecord, hfa]
    · intro b hb
      exact hf b (by simp [hb])

theorem fold_removeOne_aircrafts (l : List Aircraft) (st : SimState)
    (hf : ∀ a ∈ l, (st.scenario.get_flight a).isSome) :
    (l.foldl removeOne st).airport.aircrafts =
      l.foldl (fun acc a => acc.erase a) st.airport.aircrafts := by
  induction l generalizing st with
  | nil => rfl
  | cons a t ih =>
    obtain ⟨f, hfa⟩ := Option.isSome_iff_exists.mp (hf a (by simp))
    have h1 : removeOne st a =
        { st with
          completedItineraries := st.completedItineraries ++
            [⟨f.appear_time, st.clock.now, a.itinerary⟩],
          airport := removeAircraft st.airport a } := by
      unfold removeOne
      rw [hfa]
    rw [List.foldl_cons, h1, ih]
    · rfl
    · intro b hb
      exact hf b (by simp [hb])

theorem foldl_erase_cons (S t : List Aircraft) (a : Aircraft) (ha : a ∉ S) :
    S.foldl (fun acc x => acc.erase x) (a :: t) =
      a :: S.foldl (fun acc x => acc.erase x) t := by
  induction S generalizing t with
  | nil => rfl
  | cons x S2 ih =>
    have hxa : ¬ (a == x) = true := by
      simp only [beq_iff_eq]
      rintro rfl
      exact ha (by simp)
    rw [List.foldl_cons, List.foldl_cons, List.erase_cons_tail hxa,
      ih (t.erase x) (fun h => ha (by simp [h]))]

theorem filter_foldl_erase (L : List Aircraft) (p : Aircraft → Bool)
    (h : L.Nodup) :
    (L.filter p).foldl (fun acc x => acc.erase x) L =
      L.filter (fun a => !p a) := by
  induction L with
  | nil => rfl
  | cons a t ih =>
    have hnd := List.nodup_cons.mp h
    by_cases hp : p a
    · rw [List.filter_cons_of_pos hp, List.foldl_cons,
        List.erase_cons_head, ih hnd.2, List.filter_cons_of_neg (by simp [hp])]
    · have hna : a ∉ t.filter p := fun hmem => hnd.1 (List.mem_of_mem_filter hmem)
      rw [List.filter_cons_of_neg hp, foldl_erase_cons _ _ _ hna, ih hnd.2,
        List.filter_cons_of_pos (by simp [hp])]



theorem addAircrafts_clock (s : SimState) :
    (addAircrafts s).clock = s.clock := rfl

theorem addAircrafts_completed (s : SimState) :
    (addAircrafts s).completedItineraries = s.completedItineraries := rfl

theorem tickMid_trace (cfg : Config) (env : Env) (s2 : SimState) :
    (tickMid cfg env s2).2 =
      [Stage.admission, .physicsTick] ++
        (if cfg.testMode then [] else [.stateLogging]) ++ [.removal] := rfl

theorem tickMid_clock (cfg : Config) (env : Env) (s2 : SimState) :
    (tickMid cfg env s2).1.clock = s2.clock := by
  unfold tickMid removeAircrafts
  rw [fold_removeOne_clock]
  rfl

theorem tickMid_lastSched (cfg : Config) (env : Env) (s2 : SimState) :
    (tickMid cfg env s2).1.lastScheduleTime = s2.lastScheduleTime := by
  unfold tickMid removeAircrafts
  rw [fold_removeOne_lastSched]
  rfl

theorem tickMid_completed (cfg : Config) (env : Env) (s2 : SimState) :
    ∃ ext, (tickMid cfg env s2).1.completedItineraries =
      s2.completedItineraries ++ ext ∧
      ∀ r ∈ ext, r.removal_time = s2.clock.now := by
  unfold tickMid removeAircrafts
  obtain ⟨ext, he, hr⟩ := fold_removeOne_completed_general
    (List.filter (shouldRemove env ({ addAircrafts s2 with
        airport := env.physics (addAircrafts s2).airport }).scenario)
      ({ addAircrafts s2 with
        airport := env.physics (addAircrafts s2).airport }).airport.aircrafts)
    { addAircrafts s2 with airport := env.physics (addAircrafts s2).airport }
  exact ⟨ext, he, hr⟩

theorem tickFinish_airport (cfg : Config) (s6 : SimState) :
    (tickFinish cfg s6).1.airport = s6.airport := by
  unfold tickFinish
  cases Clock.tick s6.clock with
  | error e => rfl
  | ok c =>
    by_cases hc : 0 < s6.airport.conflicts.length <;> simp [hc]

theorem tickFinish_completed (cfg : Config) (s6 : SimState) :
    (tickFinish cfg s6).1.completedItineraries =
      s6.completedItineraries := by
  unfold tickFinish
  cases Clock.tick s6.clock with
  | error e => rfl
  | ok c =>
    by_cases hc : 0 < s6.airport.conflicts.length <;> simp [hc]

theorem tickFinish_lastSched (cfg : Config) (s6 : SimState) :
    (tickFinish cfg s6).1.lastScheduleTime = s6.lastScheduleTime := by
  unfold tickFinish
  cases Clock.tick s6.clock with
  | error e => rfl
  | ok c =>
    by_cases hc : 0 < s6.airport.conflicts.length <;> simp [hc]

theorem tickFinish_err_endOfDay (cfg : Config) (s6 : SimState) :
    (tickFinish cfg s6).2.2 = some SimErr.endOfDay ↔
      s6.clock.horizon < s6.clock.now + s6.clock.simTime := by
  unfold tickFinish Clock.tick
  by_cases hc : s6.clock.horizon < s6.clock.now + s6.clock.simTime
  · simp [hc]
  · simp only [hc, if_false]
    by_cases h2 : 0 < s6.airport.conflicts.length <;> simp [h2, hc]

theorem tickFinish_err_conflict (cfg : Config) (s6 : SimState) :
    (tickFinish cfg s6).2.2 = some SimErr.conflict ↔
      ¬ (s6.clock.horizon < s6.clock.now + s6.clock.simTime) ∧
        0 < s6.airport.conflicts.length := by
  unfold tickFinish Clock.tick
  by_cases hc : s6.clock.horizon < s6.clock.now + s6.clock.simTime
  · simp [hc]
  · simp only [hc, if_false]
    by_cases h2 : 0 < s6.airport.conflicts.length <;> simp [h2, hc]

theorem tickFinish_conflict_clock (cfg : Config) (s6 : SimState)
    (h : (tickFinish cfg s6).2.2 = some SimErr.conflict) :
    (tickFinish cfg s6).1.clock.now = s6.clock.now + s6.clock.simTime := by
  unfold tickFinish Clock.tick at h ⊢
  by_cases hc : s6.clock.horizon < s6.clock.now + s6.clock.simTime
  · simp [hc] at h
  · simp only [hc, if_false] at h ⊢
    by_cases h2 : 0 < s6.airport.conflicts.length <;> simp [h2] at h ⊢

theorem tickFinish_trace_conflict (cfg : Config) (s6 : SimState)
    (h : (tickFinish cfg s6).2.2 = some SimErr.conflict) :
    (tickFinish cfg s6).2.1 = [Stage.clockAdvance, .conflictCheck] := by
  unfold tickFinish Clock.tick at h ⊢
  by_cases hc : s6.clock.horizon < s6.clock.now + s6.clock.simTime
  · simp [hc] at h
  · simp only [hc, if_false] at h ⊢
    by_cases h2 : 0 < s6.airport.conflicts.length <;> simp [h2] at h ⊢

theorem tickFinish_trace_endOfDay (cfg : Config) (s6 : SimState)
    (h : s6.clock.horizon < s6.clock.now + s6.clock.simTime) :
    (tickFinish cfg s6).2.1 =
      [Stage.clockAdvance] ++
        (if cfg.testMode then [] else [.analystSave, .logSave]) ∧
    (tickFinish cfg s6).1 = s6 ∧
    (tickFinish cfg s6).2.2 = some SimErr.endOfDay := by
  unfold tickFinish Clock.tick
  simp [h]

theorem tickFinish_trace_ok (cfg : Config) (s6 : SimState)
    (h : (tickFinish cfg s6).2.2 = none) :
    (tickFinish cfg s6).2.1 =
      [Stage.clockAdvance, .conflictCheck] ++
        (if cfg.testMode then [] else [.observation]) := by
  unfold tickFinish Clock.tick at h ⊢
  by_cases hc : s6.clock.horizon < s6.clock.now + s6.clock.simTime
  · simp [hc] at h
  · simp only [hc, if_false] at h ⊢
    by_cases h2 : 0 < s6.airport.conflicts.length <;> simp [h2] at h ⊢

theorem tickFinish_trace_mem (cfg : Config) (s6 : SimState) (x : Stage)
    (hx : x ∈ (tickFinish cfg s6).2.1) :
    x = Stage.clockAdvance ∨ x = Stage.conflictCheck ∨
      x = Stage.observation ∨ x = Stage.analystSave ∨ x = Stage.logSave := by
  unfold tickFinish at hx
  rcases hck : Clock.tick s6.clock with e | c <;> rw [hck] at hx
  · rcases cfg.testMode with _ | _ <;> simp_all <;> tauto
  · by_cases h2 : 0 < s6.airport.conflicts.length <;>
      rcases cfg.testMode with _ | _ <;> simp_all <;> tauto



theorem tick_err_pre (cfg : Config) (env : Env) (s : SimState) (e : SimErr)
    (he : (tickPre cfg env s).2.2 = some e) :
    tick cfg env s =
      ⟨(tickPre cfg env s).1, (tickPre cfg env s).2.1, some e⟩ := by
  simp [tick, he]

theorem tick_decomp (cfg : Config) (env : Env) (s : SimState)
    (he : (tickPre cfg env s).2.2 = none) :
    tick cfg env s =
      ⟨(tickFinish cfg (tickMid cfg env (tickPre cfg env s).1).1).1,
       (tickPre cfg env s).2.1 ++
         (tickMid cfg env (tickPre cfg env s).1).2 ++
         (tickFinish cfg (tickMid cfg env (tickPre cfg env s).1).1).2.1,
       (tickFinish cfg (tickMid cfg env (tickPre cfg env s).1).1).2.2⟩ := by
  simp [tick, he]

theorem tickPre_err_none_of_unc_none (cfg : Config) (env : Env)
    (s : SimState) (hu : s.uncertainty = none) :
    (tickPre cfg env s).2.2 = none := by
  rw [tickPre_none cfg env s hu]

theorem tickPre_trace_mem (cfg : Config) (env : Env) (s : SimState)
    (x : Stage) (hx : x ∈ (tickPre cfg env s).2.1) :
    x = Stage.rescheduleCheck ∨ x = Stage.rescheduleRun ∨
      x = Stage.rescheduleObserve ∨ x = Stage.uncertaintyInjection := by
  rw [tickPre_trace] at hx
  simp at hx
  rcases hx with h1 | h2 | h3
  · exact Or.inl h1
  · rcases rescheduleStep_trace_mem cfg env s x h2 with h | h
    · exact Or.inr (Or.inl h)
    · exact Or.inr (Or.inr (Or.inl h))
  · exact Or.inr (Or.inr (Or.inr h3))

theorem tickMid_trace_mem (cfg : Config) (env : Env) (s2 : SimState)
    (x : Stage) (hx : x ∈ (tickMid cfg env s2).2) :
    x = Stage.admission ∨ x = Stage.physicsTick ∨
      x = Stage.stateLogging ∨ x = Stage.removal := by
  rw [tickMid_trace] at hx
  rcases h : cfg.testMode with _ | _ <;> rw [h] at hx <;> simp at hx <;> tauto



/-- Claim C1 — a tick that completes without error performs exactly the
pipeline stages reschedule check, uncertainty injection, admission,
physics tick, state logging, removal, clock advance, conflict check and
analytics observation, in that strict order, with the logging and
observation stages skipped in test mode. -/
theorem tick_stage_order (cfg : Config) (env : Env) (s : SimState)
    (h : (tick cfg env s).err = none) :
    (tick cfg env s).trace.filter Stage.isMain =
      (if cfg.testMode then
        [Stage.rescheduleCheck, .uncertaintyInjection, .admission,
         .physicsTick, .removal, .clockAdvance, .conflictCheck]
      else
        [Stage.rescheduleCheck, .uncertaintyInjection, .admission,
         .physicsTick, .stateLogging, .removal, .clockAdvance,
         .conflictCheck, .observation]) := by
  rcases he : (tickPre cfg env s).2.2 with _ | e
  · rw [tick_decomp cfg env s he] at h ⊢
    dsimp only at h ⊢
    rw [List.filter_append, List.filter_append, tickPre_trace,
      tickMid_trace, tickFinish_trace_ok _ _ h]
    rcases ht : cfg.testMode with _ | _ <;>
      simp [ht, List.filter_append, rescheduleStep_filter, Stage.isMain]
  · rw [tick_err_pre cfg env s e he] at h
    simp at h

theorem tick_stage_order_witness :
    (tick cfgFull envId sRun).err = none ∧
    (tick cfgFull envId sRun).trace.filter Stage.isMain =
      (if cfgFull.testMode then
        [Stage.rescheduleCheck, .uncertaintyInjection, .admission,
         .physicsTick, .removal, .clockAdvance, .conflictCheck]
      else
        [Stage.rescheduleCheck, .uncertaintyInjection, .admission,
         .physicsTick, .stateLogging, .removal, .clockAdvance,
         .conflictCheck, .observation]) :=
  ⟨rfl, tick_stage_order cfgFull envId sRun rfl⟩

/-- Claim C7 — the scheduler body runs on a tick iff no schedule was
ever computed or at least one reschedule cycle of simulated time has
elapsed since the recorded instant of the last reschedule; and the
recorded instant is updated to the current time exactly when it runs. -/
theorem reschedule_cadence (cfg : Config) (env : Env) (s : SimState) :
    (Stage.rescheduleRun ∈ (tick cfg env s).trace ↔
      (s.lastScheduleTime = none ∨
       ∃ t, s.lastScheduleTime = some t ∧
         t + cfg.rescheduleCycle ≤ s.clock.now)) ∧
    ((tick cfg env s).s.lastScheduleTime =
      (if isTimeToReschedule cfg s then some s.clock.now
       else s.lastScheduleTime)) := by
  have hiff : isTimeToReschedule cfg s = true ↔
      (s.lastScheduleTime = none ∨
       ∃ t, s.lastScheduleTime = some t ∧
         t + cfg.rescheduleCycle ≤ s.clock.now) := by
    unfold isTimeToReschedule get_seconds_after
    cases hl : s.lastScheduleTime with
    | none => simp
    | some t => simp [hl]
  have hpre : Stage.rescheduleRun ∈ (tickPre cfg env s).2.1 ↔
      isTimeToReschedule cfg s = true := by
    rw [tickPre_trace]
    simp only [List.mem_append, List.mem_singleton]
    constructor
    · rintro ((h | h) | h)
      · exact absurd h (by simp)
      · exact (rescheduleStep_run_iff cfg env s).mp h
      · exact absurd h (by simp)
    · intro h
      exact Or.inl (Or.inr ((rescheduleStep_run_iff cfg env s).mpr h))
  rcases he : (tickPre cfg env s).2.2 with _ | e
  · rw [tick_decomp cfg env s he]
    dsimp only
    constructor
    · rw [← hiff, ← hpre]
      simp only [List.mem_append]
      constructor
      · rintro ((h | h) | h)
        · exact h
        · rcases tickMid_trace_mem cfg env _ _ h with h | h | h | h <;> simp at h
        · rcases tickFinish_trace_mem cfg _ _ h with h | h | h | h | h <;>
            simp at h
      · intro h
        exact Or.inl (Or.inl h)
    · rw [tickFinish_lastSched, tickMid_lastSched, tickPre_lastSched]
  · rw [tick_err_pre cfg env s e he]
    dsimp only
    exact ⟨hpre.trans hiff, tickPre_lastSched cfg env s⟩

theorem reschedule_cadence_witness :
    Stage.rescheduleRun ∈ (tick cfgFull envId sRun).trace ∧
    (tick cfgFull envId sRun).s.lastScheduleTime = some sRun.clock.now :=
  ⟨(reschedule_cadence cfgFull envId sRun).1.mpr (Or.inl rfl),
   by rw [(reschedule_cadence cfgFull envId sRun).2]; rfl⟩



/-- Claim C5, amended — tick raises SimulationConflict iff the airport
reports a conflict after the physics step AND the clock advance did not
signal EndOfDay; when raised it is after the clock advance (the clock has
moved forward and the trace ends with clock advance then conflict check),
and the analytics observation for that tick does not occur. -/
theorem conflict_error_spec (cfg : Config) (env : Env) (s : SimState)
    (hu : s.uncertainty = none) :
    ((tick cfg env s).err = some SimErr.conflict ↔
       0 < (tick cfg env s).s.airport.conflicts.length ∧
       ¬ (s.clock.horizon < s.clock.now + s.clock.simTime)) ∧
    ((tick cfg env s).err = some SimErr.conflict →
       (tick cfg env s).s.clock.now = s.clock.now + s.clock.simTime ∧
       (∃ t, (tick cfg env s).trace =
          t ++ [Stage.clockAdvance, Stage.conflictCheck]) ∧
       Stage.observation ∉ (tick cfg env s).trace) := by
  have he := tickPre_err_none_of_unc_none cfg env s hu
  rw [tick_decomp cfg env s he]
  dsimp only
  have hck : (tickMid cfg env (tickPre cfg env s).1).1.clock = s.clock := by
    rw [tickMid_clock, tickPre_clock]
  constructor
  · rw [tickFinish_err_conflict, tickFinish_airport, hck]
    exact ⟨fun ⟨h1, h2⟩ => ⟨h2, h1⟩, fun ⟨h1, h2⟩ => ⟨h2, h1⟩⟩
  · intro hcf
    refine ⟨?_, ?_, ?_⟩
    · rw [tickFinish_conflict_clock cfg _ hcf, hck]
    · exact ⟨_, by rw [tickFinish_trace_conflict cfg _ hcf]⟩
    · intro hobs
      rcases List.mem_append.mp hobs with h | h
      · rcases List.mem_append.mp h with h2 | h2
        · rcases tickPre_trace_mem cfg env s _ h2 with h3 | h3 | h3 | h3 <;>
            simp at h3
        · rcases tickMid_trace_mem cfg env _ _ h2 with h3 | h3 | h3 | h3 <;>
            simp at h3
      · rw [tickFinish_trace_conflict cfg _ hcf] at h
        simp at h

theorem conflict_error_spec_witness :
    (tick cfgTest envConflict sRun).err = some SimErr.conflict :=
  ((conflict_error_spec cfgTest envConflict sRun rfl).1).mpr
    ⟨by decide, by decide⟩

/-- Claim C6 — when the clock advance raises EndOfDay, the engine
re-raises the same EndOfDay signal in every case; unless in test mode it
first saves the analytics and then persists the state log, and test mode
suppresses exactly those two side calls. -/
theorem endOfDay_finalize_spec (cfg : Config) (env : Env) (s : SimState)
    (hu : s.uncertainty = none)
    (hc : s.clock.horizon < s.clock.now + s.clock.simTime) :
    (tick cfg env s).err = some SimErr.endOfDay ∧
    (cfg.testMode = false →
       ∃ t, (tick cfg env s).trace =
         t ++ [Stage.analystSave, Stage.logSave]) ∧
    (cfg.testMode = true →
       Stage.analystSave ∉ (tick cfg env s).trace ∧
       Stage.logSave ∉ (tick cfg env s).trace) := by
  have he := tickPre_err_none_of_unc_none cfg env s hu
  rw [tick_decomp cfg env s he]
  dsimp only
  have hck : (tickMid cfg env (tickPre cfg env s).1).1.clock = s.clock := by
    rw [tickMid_clock, tickPre_clock]
  have hc6 : (tickMid cfg env (tickPre cfg env s).1).1.clock.horizon <
      (tickMid cfg env (tickPre cfg env s).1).1.clock.now +
      (tickMid cfg env (tickPre cfg env s).1).1.clock.simTime := by
    rw [hck]; exact hc
  obtain ⟨htr, hst, herr⟩ := tickFinish_trace_endOfDay cfg _ hc6
  refine ⟨herr, ?_, ?_⟩
  · intro ht
    rw [htr, ht]
    simp only [if_neg (by simp : ¬ (false = true))]
    exact ⟨(tickPre cfg env s).2.1 ++ (tickMid cfg env (tickPre cfg env s).1).2
      ++ [Stage.clockAdvance], by simp⟩
  · intro ht
    rw [htr, ht]
    simp only [if_pos rfl]
    constructor <;> intro hmem <;>
    · rcases List.mem_append.mp hmem with h | h
      · rcases List.mem_append.mp h with h2 | h2
        · rcases tickPre_trace_mem cfg env s _ h2 with h3 | h3 | h3 | h3 <;>
            simp at h3
        · rcases tickMid_trace_mem cfg env _ _ h2 with h3 | h3 | h3 | h3 <;>
            simp at h3
      · simp at h

theorem endOfDay_finalize_spec_witness :
    (tick cfgFull envId sHorizon).err = some SimErr.endOfDay ∧
    ∃ t, (tick cfgFull envId sHorizon).trace =
      t ++ [Stage.analystSave, Stage.logSave] :=
  ⟨(endOfDay_finalize_spec cfgFull envId sHorizon rfl (by decide)).1,
   (endOfDay_finalize_spec cfgFull envId sHorizon rfl (by decide)).2.1 rfl⟩



/-- Claim C3 — in the removal stage an active aircraft is removed iff its
location is within tolerance of its flight's runway start; each removal
appends exactly one completed-itinerary record with the flight's appear
time, the current clock time, and the aircraft's itinerary; removal
decisions are computed as a batch over the original active list; and
within a full tick every appended record carries the clock time from
before that tick's clock advance. -/
theorem removal_spec (cfg : Config) (env : Env) (s : SimState)
    (hnd : s.airport.aircrafts.Nodup)
    (hfl : ∀ a ∈ s.airport.aircrafts, (s.scenario.get_flight a).isSome) :
    (∀ a ∈ s.airport.aircrafts, ∀ f, s.scenario.get_flight a = some f →
       (a ∈ (removeAircrafts env s).airport.aircrafts ↔
        env.closeTo a.location f.runwayStart = false)) ∧
    ((removeAircrafts env s).airport.aircrafts =
       s.airport.aircrafts.filter (fun a => !shouldRemove env s.scenario a)) ∧
    ((removeAircrafts env s).completedItineraries =
       s.completedItineraries ++
         (s.airport.aircrafts.filter (shouldRemove env s.scenario)).map
           (itinRecord s.scenario s.clock.now)) ∧
    (s.uncertainty = none →
       ∃ ext, (tick cfg env s).s.completedItineraries =
         s.completedItineraries ++ ext ∧
         ∀ r ∈ ext, r.removal_time = s.clock.now) := by
  have hfl2 : ∀ a ∈ s.airport.aircrafts.filter (shouldRemove env s.scenario),
      (s.scenario.get_flight a).isSome :=
    fun a ha => hfl a (List.mem_of_mem_filter ha)
  have hair : (removeAircrafts env s).airport.aircrafts =
      s.airport.aircrafts.filter (fun a => !shouldRemove env s.scenario a) := by
    unfold removeAircrafts
    rw [fold_removeOne_aircrafts _ _ hfl2, filter_foldl_erase _ _ hnd]
  refine ⟨?_, hair, ?_, ?_⟩
  · intro a ha f hf
    rw [hair, List.mem_filter]
    constructor
    · rintro ⟨_, hb⟩
      unfold shouldRemove at hb
      rw [hf] at hb
      simpa using hb
    · intro hcl
      refine ⟨ha, ?_⟩
      simp [shouldRemove, hf, hcl]
  · unfold removeAircrafts
    exact fold_removeOne_completed_exact _ _ hfl2
  · intro hu
    have he := tickPre_err_none_of_unc_none cfg env s hu
    rw [tick_decomp cfg env s he]
    dsimp only
    rw [tickFinish_completed]
    obtain ⟨ext, hext, hr⟩ := tickMid_completed cfg env (tickPre cfg env s).1
    rw [hext, tickPre_completed]
    refine ⟨ext, rfl, ?_⟩
    intro r hrr
    have h2 := hr r hrr
    rw [tickPre_clock] at h2
    exact h2

theorem removal_spec_witness :
    (acAtRwy ∉ (removeAircrafts envId sBusy).airport.aircrafts) ∧
    (removeAircrafts envId sBusy).completedItineraries =
      [⟨flight1.appear_time, sBusy.clock.now, acAtRwy.itinerary⟩] := by
  have h := removal_spec cfgTest envId sBusy (by decide) (by decide)
  constructor
  · intro hmem
    have h2 := (h.1 acAtRwy (by decide) flight1 (by decide)).mp hmem
    revert h2
    decide
  · rw [h.2.2.1]
    decide

/-- Claim C9 — quiet_tick performs only admission, physics tick, removal
and clock advance, in that order and with the same mechanics as tick
(the same embedded operations composed in the same order); it never
performs the reschedule check, uncertainty injection, state logging,
conflict check or analytics observation, and it propagates EndOfDay
exactly when the clock advance would pass the horizon. -/
theorem quiet_tick_spec (env : Env) (s : SimState) :
    (quietTick env s).trace =
      [Stage.admission, .physicsTick, .removal, .clockAdvance] ∧
    ((quietTick env s).err = some SimErr.endOfDay ↔
      s.clock.horizon < s.clock.now + s.clock.simTime) ∧
    ((quietTick env s).err = none ↔
      ¬ (s.clock.horizon < s.clock.now + s.clock.simTime)) ∧
    Stage.rescheduleCheck ∉ (quietTick env s).trace ∧
    Stage.rescheduleRun ∉ (quietTick env s).trace ∧
    Stage.uncertaintyInjection ∉ (quietTick env s).trace ∧
    Stage.stateLogging ∉ (quietTick env s).trace ∧
    Stage.conflictCheck ∉ (quietTick env s).trace ∧
    Stage.observation ∉ (quietTick env s).trace ∧
    ((quietTick env s).s =
      (if s.clock.horizon < s.clock.now + s.clock.simTime then
        removeAircrafts env
          { addAircrafts s with airport := env.physics (addAircrafts s).airport }
       else
        { removeAircrafts env
            { addAircrafts s with
              airport := env.physics (addAircrafts s).airport } with
          clock := { s.clock with now := s.clock.now + s.clock.simTime } })) := by
  have hclk : ∀ st : SimState, (removeAircrafts env st).clock = st.clock := by
    intro st
    unfold removeAircrafts
    rw [fold_removeOne_clock]
  unfold quietTick
  dsimp only
  rw [hclk]
  unfold Clock.tick
  by_cases hc : s.clock.horizon < s.clock.now + s.clock.simTime <;>
    simp [hc, hclk, addAircrafts]



theorem find_write_ne {β : Type} (l : List (Nat × β)) (r r2 : Nat) (v : β)
    (hne : r ≠ r2) :
    (l.map (fun p => if p.1 == r then (r, v) else p)).find?
        (fun p => p.1 == r2) =
      l.find? (fun p => p.1 == r2) := by
  induction l with
  | nil => rfl
  | cons a t ih =>
    by_cases h1 : a.1 = r
    · rw [List.map_cons, if_pos (by simp [h1])]
      rw [List.find?_cons_of_neg _ (by simp [hne]),
        List.find?_cons_of_neg _ (by simp [h1, hne])]
      exact ih
    · rw [List.map_cons, if_neg (by simp [h1])]
      by_cases h2 : a.1 = r2
      · rw [List.find?_cons_of_pos _ (by simp [h2]),
          List.find?_cons_of_pos _ (by simp [h2])]
      · rw [List.find?_cons_of_neg _ (by simp [h2]),
          List.find?_cons_of_neg _ (by simp [h2])]
        exact ih

theorem readA_writeA_ne (hp : Heap) (r r2 : Nat) (v : Airport)
    (hne : r ≠ r2) :
    readA (writeA hp r v) r2 = readA hp r2 := by
  unfold readA writeA
  rw [find_write_ne _ _ _ _ hne]

theorem readC_writeC_ne (hp : Heap) (r r2 : Nat) (v : Clock)
    (hne : r ≠ r2) :
    readC (writeC hp r v) r2 = readC hp r2 := by
  unfold readC writeC
  rw [find_write_ne _ _ _ _ hne]

theorem find_append_fresh {β : Type} (l m : List (Nat × β)) (r : Nat)
    (hl : ∀ p ∈ l, ¬ (p.1 == r) = true) :
    (l ++ m).find? (fun p => p.1 == r) = m.find? (fun p => p.1 == r) := by
  rw [List.find?_append, List.find?_eq_none.mpr hl]
  rfl

/-- Claim C4 — the delegate's snapshot is a deep copy: the copy's
uncertainty module is the one supplied (disabled when none), its logging
is silenced, its airport and clock hold the same values as the
original's, and the two engines alias no state — writing through either
engine's references never changes what the other reads. -/
theorem snapshot_isolation (h : Heap) (e : EngineRef) (u : Option UncMod)
    (hwf : h.WF) (hl : e.Live h) :
    ((delegateCopy h e u).2.uncertainty = u) ∧
    ((delegateCopy h e u).2.quiet = true) ∧
    (readA (delegateCopy h e u).1 (delegateCopy h e u).2.airportRef =
      readA h e.airportRef) ∧
    (readC (delegateCopy h e u).1 (delegateCopy h e u).2.clockRef =
      readC h e.clockRef) ∧
    (readA (delegateCopy h e u).1 e.airportRef = readA h e.airportRef) ∧
    (readC (delegateCopy h e u).1 e.clockRef = readC h e.clockRef) ∧
    (∀ v, readA (writeA (delegateCopy h e u).1
        (delegateCopy h e u).2.airportRef v) e.airportRef =
      readA (delegateCopy h e u).1 e.airportRef) ∧
    (∀ v, readC (writeC (delegateCopy h e u).1
        (delegateCopy h e u).2.clockRef v) e.clockRef =
      readC (delegateCopy h e u).1 e.clockRef) ∧
    (∀ v, readA (writeA (delegateCopy h e u).1 e.airportRef v)
        (delegateCopy h e u).2.airportRef =
      readA (delegateCopy h e u).1 (delegateCopy h e u).2.airportRef) ∧
    (∀ v, readC (writeC (delegateCopy h e u).1 e.clockRef v)
        (delegateCopy h e u).2.clockRef =
      readC (delegateCopy h e u).1 (delegateCopy h e u).2.clockRef) := by
  obtain ⟨apv, hA⟩ := Option.isSome_iff_exists.mp hl.1
  obtain ⟨ckv, hC⟩ := Option.isSome_iff_exists.mp hl.2
  have hfindA : ∃ pr, h.airports.find? (fun p => p.1 == e.airportRef) = some pr ∧
      pr.2 = apv := by
    unfold readA at hA
    cases hfa : h.airports.find? (fun p => p.1 == e.airportRef) with
    | none => rw [hfa] at hA; simp at hA
    | some pr => rw [hfa] at hA; simp at hA; exact ⟨pr, rfl, hA⟩
  have hfindC : ∃ pr, h.clocks.find? (fun p => p.1 == e.clockRef) = some pr ∧
      pr.2 = ckv := by
    unfold readC at hC
    cases hfc : h.clocks.find? (fun p => p.1 == e.clockRef) with
    | none => rw [hfc] at hC; simp at hC
    | some pr => rw [hfc] at hC; simp at hC; exact ⟨pr, rfl, hC⟩
  obtain ⟨prA, hfA, hvA⟩ := hfindA
  obtain ⟨prC, hfC, hvC⟩ := hfindC
  have haLt : e.airportRef < h.nextAddr := by
    have hmem := List.mem_of_find?_eq_some hfA
    have hkey := List.find?_some hfA
    have h2 := hwf.1 prA hmem
    rw [eq_of_beq hkey] at h2
    exact h2
  have hcLt : e.clockRef < h.nextAddr := by
    have hmem := List.mem_of_find?_eq_some hfC
    have hkey := List.find?_some hfC
    have h2 := hwf.2 prC hmem
    rw [eq_of_beq hkey] at h2
    exact h2
  have hane : h.nextAddr ≠ e.airportRef := fun hh => absurd (hh ▸ haLt) (Nat.lt_irrefl _)
  have hcne : h.nextAddr + 1 ≠ e.clockRef :=
    fun hh => absurd (hh ▸ Nat.lt_succ_of_lt hcLt) (Nat.lt_irrefl _)
  have hfreshA : ∀ p ∈ h.airports, ¬ (p.1 == h.nextAddr) = true := by
    intro p hp hbeq
    have h2 := hwf.1 p hp
    rw [eq_of_beq hbeq] at h2
    exact Nat.lt_irrefl _ h2
  have hfreshC : ∀ p ∈ h.clocks, ¬ (p.1 == h.nextAddr + 1) = true := by
    intro p hp hbeq
    have h2 := hwf.2 p hp
    rw [eq_of_beq hbeq] at h2
    exact absurd (Nat.lt_of_succ_lt h2) (Nat.lt_irrefl _)
  refine ⟨rfl, rfl, ?_, ?_, ?_, ?_, ?_, ?_, ?_, ?_⟩
  · show readA ⟨h.airports ++ [(h.nextAddr, (readA h e.airportRef).getD ⟨[], [], []⟩)],
      h.clocks ++ [(h.nextAddr + 1, (readC h e.clockRef).getD ⟨0, 0, 0⟩)],
      h.nextAddr + 2⟩ h.nextAddr = readA h e.airportRef
    unfold readA at hA ⊢
    rw [hA]
    simp only [Option.getD_some]
    rw [find_append_fresh _ _ _ hfreshA]
    rw [List.find?_cons_of_pos _ (by simp)]
    simp
  · show readC ⟨h.airports ++ [(h.nextAddr, (readA h e.airportRef).getD ⟨[], [], []⟩)],
      h.clocks ++ [(h.nextAddr + 1, (readC h e.clockRef).getD ⟨0, 0, 0⟩)],
      h.nextAddr + 2⟩ (h.nextAddr + 1) = readC h e.clockRef
    unfold readC at hC ⊢
    rw [hC]
    simp only [Option.getD_some]
    rw [find_append_fresh _ _ _ hfreshC]
    rw [List.find?_cons_of_pos _ (by simp)]
    simp
  · unfold readA delegateCopy
    simp only
    rw [List.find?_append, hfA]
    rfl
  · unfold readC delegateCopy
    simp only
    rw [List.find?_append, hfC]
    rfl
  · intro v
    exact readA_writeA_ne _ _ _ _ hane
  · intro v
    exact readC_writeC_ne _ _ _ _ hcne
  · intro v
    exact readA_writeA_ne _ _ _ _ (fun hh => hane hh.symm)
  · intro v
    exact readC_writeC_ne _ _ _ _ (fun hh => hcne hh.symm)

theorem lookupQ_cons_self (g : Loc) (q : List Aircraft)
    (t : List (Loc × List Aircraft)) :
    lookupQ ((g, q) :: t) g = some q := by
  simp [lookupQ]

theorem lookupQ_cons_ne (g0 g : Loc) (q0 : List Aircraft)
    (t : List (Loc × List Aircraft)) (hne : g0 ≠ g) :
    lookupQ ((g0, q0) :: t) g = lookupQ t g := by
  simp [lookupQ, hne]

theorem lookupQ_mem (gq : List (Loc × List Aircraft)) (g : Loc)
    (q : List Aircraft) (h : lookupQ gq g = some q) : (g, q) ∈ gq := by
  induction gq with
  | nil => simp [lookupQ] at h
  | cons hd t ih =>
    obtain ⟨g0, q0⟩ := hd
    by_cases hg : g0 = g
    · subst hg
      rw [lookupQ_cons_self] at h
      injection h with h
      subst h
      exact List.mem_cons_self _ _
    · rw [lookupQ_cons_ne _ _ _ _ hg] at h
      exact List.mem_cons_of_mem _ (ih h)

theorem addFromQueueLoop_keys (l : List (Loc × List Aircraft))
    (acs : List Aircraft) :
    (addFromQueueLoop l acs).1.map Prod.fst = l.map Prod.fst := by
  induction l generalizing acs with
  | nil => rfl
  | cons hd t ih =>
    obtain ⟨g, q⟩ := hd
    match q with
    | [] => simp [addFromQueueLoop, ih]
    | a :: q2 =>
      by_cases hocc : acs.any (fun x => x.location == g) <;>
        simp [addFromQueueLoop, hocc, ih]

theorem addFromQueueLoop_adds (l : List (Loc × List Aircraft))
    (acs : List Aircraft) :
    ∃ ext, (addFromQueueLoop l acs).2 = acs ++ ext := by
  induction l generalizing acs with
  | nil => exact ⟨[], by simp [addFromQueueLoop]⟩
  | cons hd t ih =>
    obtain ⟨g, q⟩ := hd
    match q with
    | [] =>
      obtain ⟨ext, he⟩ := ih acs
      exact ⟨ext, by simp [addFromQueueLoop, he]⟩
    | a :: q2 =>
      by_cases hocc : acs.any (fun x => x.location == g)
      · obtain ⟨ext, he⟩ := ih acs
        exact ⟨ext, by simp [addFromQueueLoop, hocc, he]⟩
      · obtain ⟨ext, he⟩ := ih (acs ++ [{ a with location := g }])
        refine ⟨{ a with location := g } :: ext, ?_⟩
        simp [addFromQueueLoop, hocc, he]

theorem addFromQueueLoop_dequeue (l : List (Loc × List Aircraft))
    (acs : List Aircraft) (g : Loc) (a : Aircraft) (q2 : List Aircraft)
    (hnd : (l.map Prod.fst).Nodup)
    (hmem : (g, a :: q2) ∈ l)
    (hocc : acs.any (fun x => x.location == g) = false) :
    lookupQ (addFromQueueLoop l acs).1 g = some q2 ∧
    { a with location := g } ∈ (addFromQueueLoop l acs).2 := by
  induction l generalizing acs with
  | nil => simp at hmem
  | cons hd t ih =>
    obtain ⟨g0, q0⟩ := hd
    rcases List.mem_cons.mp hmem with heq | hmem2
    · injection heq with h1 h2
      subst h1
      subst h2
      rw [show addFromQueueLoop ((g, a :: q2) :: t) acs =
          ((g, q2) ::
            (addFromQueueLoop t (acs ++ [{ a with location := g }])).1,
           (addFromQueueLoop t (acs ++ [{ a with location := g }])).2) from by
        simp [addFromQueueLoop, hocc]]
      refine ⟨lookupQ_cons_self _ _ _, ?_⟩
      obtain ⟨ext, he⟩ :=
        addFromQueueLoop_adds t (acs ++ [{ a with location := g }])
      rw [he]
      simp
    · rw [List.map_cons, List.nodup_cons] at hnd
      have hg0 : g0 ≠ g := by
        intro hh
        subst hh
        exact hnd.1 (List.mem_map.mpr ⟨(g0, a :: q2), hmem2, rfl⟩)
      have hnd2 : (t.map Prod.fst).Nodup := hnd.2
      match q0 with
      | [] =>
        obtain ⟨h1, h2⟩ := ih acs hnd2 hmem2 hocc
        refine ⟨?_, ?_⟩
        · rw [show (addFromQueueLoop ((g0, []) :: t) acs).1 =
            (g0, []) :: (addFromQueueLoop t acs).1 from by
              simp [addFromQueueLoop]]
          rw [lookupQ_cons_ne _ _ _ _ hg0]
          exact h1
        · rw [show (addFromQueueLoop ((g0, []) :: t) acs).2 =
            (addFromQueueLoop t acs).2 from by simp [addFromQueueLoop]]
          exact h2
      | a0 :: q02 =>
        by_cases hocc0 : acs.any (fun x => x.location == g0)
        · obtain ⟨h1, h2⟩ := ih acs hnd2 hmem2 hocc
          refine ⟨?_, ?_⟩
          · rw [show (addFromQueueLoop ((g0, a0 :: q02) :: t) acs).1 =
              (g0, a0 :: q02) :: (addFromQueueLoop t acs).1 from by
                simp [addFromQueueLoop, hocc0]]
            rw [lookupQ_cons_ne _ _ _ _ hg0]
            exact h1
          · rw [show (addFromQueueLoop ((g0, a0 :: q02) :: t) acs).2 =
              (addFromQueueLoop t acs).2 from by
                simp [addFromQueueLoop, hocc0]]
            exact h2
        · have hocc2 : (acs ++ [{ a0 with location := g0 }]).any
              (fun x => x.location == g) = false := by
            rw [List.any_append]
            simp [hocc, hg0]
          obtain ⟨h1, h2⟩ := ih _ hnd2 hmem2 hocc2
          refine ⟨?_, ?_⟩
          · rw [show (addFromQueueLoop ((g0, a0 :: q02) :: t) acs).1 =
              (g0, q02) :: (addFromQueueLoop t
                (acs ++ [{ a0 with location := g0 }])).1 from by
                simp [addFromQueueLoop, hocc0]]
            rw [lookupQ_cons_ne _ _ _ _ hg0]
            exact h1
          · rw [show (addFromQueueLoop ((g0, a0 :: q02) :: t) acs).2 =
              (addFromQueueLoop t
                (acs ++ [{ a0 with location := g0 }])).2 from by
                simp [addFromQueueLoop, hocc0]]
            exact h2


theorem any_loc_append_false (acs : List Aircraft) (b : Aircraft) (g : Loc)
    (h1 : acs.any (fun x => x.location == g) = false)
    (h2 : (b.location == g) = false) :
    (acs ++ [b]).any (fun x => x.location == g) = false := by
  rw [List.any_append]
  simp only [h1, List.any_cons, List.any_nil, h2]
  rfl

theorem addFromQueueLoop_skip (l : List (Loc × List Aircraft))
    (acs : List Aircraft) (g : Loc) (q : List Aircraft)
    (hnd : (l.map Prod.fst).Nodup)
    (hmem : (g, q) ∈ l)
    (hskip : acs.any (fun x => x.location == g) = true ∨ q = []) :
    lookupQ (addFromQueueLoop l acs).1 g = some q := by
  induction l generalizing acs with
  | nil => simp at hmem
  | cons hd t ih =>
    obtain ⟨g0, q0⟩ := hd
    rcases List.mem_cons.mp hmem with heq | hmem2
    · injection heq with h1 h2
      subst h1
      subst h2
      match q, hskip with
      | [], _ =>
        rw [show (addFromQueueLoop ((g, []) :: t) acs).1 =
            (g, []) :: (addFromQueueLoop t acs).1 from by
          simp [addFromQueueLoop]]
        exact lookupQ_cons_self _ _ _
      | a :: q2, hskip =>
        have hocc : acs.any (fun x => x.location == g) = true := by
          rcases hskip with h | h
          · exact h
          · simp at h
        rw [show (addFromQueueLoop ((g, a :: q2) :: t) acs).1 =
            (g, a :: q2) :: (addFromQueueLoop t acs).1 from by
          simp [addFromQueueLoop, hocc]]
        exact lookupQ_cons_self _ _ _
    · rw [List.map_cons, List.nodup_cons] at hnd
      have hg0 : g0 ≠ g := by
        intro hh
        subst hh
        exact hnd.1 (List.mem_map.mpr ⟨(g0, q), hmem2, rfl⟩)
      have hnd2 : (t.map Prod.fst).Nodup := hnd.2
      match q0 with
      | [] =>
        rw [show (addFromQueueLoop ((g0, []) :: t) acs).1 =
            (g0, []) :: (addFromQueueLoop t acs).1 from by
          simp [addFromQueueLoop]]
        rw [lookupQ_cons_ne _ _ _ _ hg0]
        exact ih acs hnd2 hmem2 hskip
      | a0 :: q02 =>
        by_cases hocc0 : acs.any (fun x => x.location == g0)
        · rw [show (addFromQueueLoop ((g0, a0 :: q02) :: t) acs).1 =
              (g0, a0 :: q02) :: (addFromQueueLoop t acs).1 from by
            simp [addFromQueueLoop, hocc0]]
          rw [lookupQ_cons_ne _ _ _ _ hg0]
          exact ih acs hnd2 hmem2 hskip
        · rw [show (addFromQueueLoop ((g0, a0 :: q02) :: t) acs).1 =
              (g0, q02) :: (addFromQueueLoop t
                (acs ++ [{ a0 with location := g0 }])).1 from by
            simp [addFromQueueLoop, hocc0]]
          rw [lookupQ_cons_ne _ _ _ _ hg0]
          refine ih _ hnd2 hmem2 ?_
          rcases hskip with h | h
          · left
            rw [List.any_append]
            simp [h]
          · right
            exact h

theorem lookupQ_setQ_self (gq : List (Loc × List Aircraft)) (g : Loc)
    (v : List Aircraft) : lookupQ (setQ gq g v) g = some v := by
  induction gq with
  | nil => simp [setQ, lookupQ]
  | cons hd t ih =>
    obtain ⟨g0, q0⟩ := hd
    by_cases hg : g0 = g
    · subst hg
      simp [setQ, lookupQ]
    · rw [show setQ ((g0, q0) :: t) g v = (g0, q0) :: setQ t g v from by
        simp [setQ, hg]]
      rw [lookupQ_cons_ne _ _ _ _ hg]
      exact ih

theorem lookupQ_setQ_ne (gq : List (Loc × List Aircraft)) (g0 g : Loc)
    (v : List Aircraft) (hne : g0 ≠ g) :
    lookupQ (setQ gq g0 v) g = lookupQ gq g := by
  induction gq with
  | nil => simp [setQ, lookupQ, hne]
  | cons hd t ih =>
    obtain ⟨g1, q1⟩ := hd
    by_cases hg : g1 = g0
    · subst hg
      rw [show setQ ((g1, q1) :: t) g1 v = (g1, v) :: t from by simp [setQ]]
      rw [lookupQ_cons_ne _ _ _ _ hne, lookupQ_cons_ne _ _ _ _ hne]
    · rw [show setQ ((g1, q1) :: t) g0 v = (g1, q1) :: setQ t g0 v from by
        simp [setQ, hg]]
      by_cases hg2 : g1 = g
      · subst hg2
        rw [lookupQ_cons_self, lookupQ_cons_self]
      · rw [lookupQ_cons_ne _ _ _ _ hg2, lookupQ_cons_ne _ _ _ _ hg2]
        exact ih

theorem pushGateQueue_lookup_self (ap : Airport) (g : Loc) (a : Aircraft) :
    lookupQ (pushGateQueue ap g a).gateQueue g =
      some ((lookupQ ap.gateQueue g).getD [] ++ [a]) := by
  unfold pushGateQueue
  exact lookupQ_setQ_self _ _ _

theorem admitStep_queue_extends (now next : Time) (ap : Airport) (f : Flight)
    (g : Loc) (q : List Aircraft)
    (hq : lookupQ ap.gateQueue g = some q) :
    ∃ ext, lookupQ (admitStep now next ap f).gateQueue g = some (q ++ ext) := by
  unfold admitStep
  by_cases h1 : now ≤ f.appear_time ∧ f.appear_time < next
  · rw [if_pos h1]
    by_cases h2 : isOccupiedAt ap f.fromGate
    · rw [if_pos h2]
      by_cases h3 : f.fromGate = g
      · subst h3
        refine ⟨[f.aircraft], ?_⟩
        rw [pushGateQueue_lookup_self, hq]
        rfl
      · refine ⟨[], ?_⟩
        unfold pushGateQueue
        rw [lookupQ_setQ_ne _ _ _ _ h3, hq]
        simp
    · rw [if_neg h2]
      exact ⟨[], by simpa [addAircraft] using hq⟩
  · rw [if_neg h1]
    exact ⟨[], by simpa using hq⟩

theorem addFromScenario_queue_extends (fl : List Flight) (now next : Time)
    (ap : Airport) (g : Loc) (q : List Aircraft)
    (hq : lookupQ ap.gateQueue g = some q) :
    ∃ ext, lookupQ (List.foldl (admitStep now next) ap fl).gateQueue g =
      some (q ++ ext) := by
  induction fl generalizing ap q with
  | nil => exact ⟨[], by simpa using hq⟩
  | cons f t ih =>
    rw [List.foldl_cons]
    obtain ⟨ext1, h1⟩ := admitStep_queue_extends now next ap f g q hq
    obtain ⟨ext2, h2⟩ := ih _ _ h1
    exact ⟨ext1 ++ ext2, by rw [h2, List.append_assoc]⟩


/-- Claim C2 — in the admission stage, queue admission runs before
scenario admission; at each gate with a non-empty queue that is
unoccupied exactly the head aircraft is dequeued and placed at the gate
(the entry is unchanged when the gate is occupied or the queue empty); a
departure flight is considered exactly when its appear time lies in
`[now, now + tick_duration)`, and is then queued at its gate (appended at
the tail) if the gate is occupied and admitted directly otherwise; and
the queue order survives admission — the post-admission queue is the old
queue (minus a dequeued head) followed by newly queued aircraft, which is
the FIFO fairness property. -/
theorem admission_fifo_spec (s : SimState)
    (hnd : (s.airport.gateQueue.map Prod.fst).Nodup)
    (g : Loc) (q : List Aircraft)
    (hq : lookupQ s.airport.gateQueue g = some q) :
    ((addAircrafts s).airport =
       addAircraftsFromScenario s.clock.now
         (get_seconds_after s.clock.now s.clock.simTime) s.scenario
         (addAircraftsFromQueue s.airport)) ∧
    (∀ (ap2 : Airport) (f : Flight),
       admitStep s.clock.now
           (get_seconds_after s.clock.now s.clock.simTime) ap2 f =
         if s.clock.now ≤ f.appear_time ∧
             f.appear_time < get_seconds_after s.clock.now s.clock.simTime
         then
           (if isOccupiedAt ap2 f.fromGate then
              pushGateQueue ap2 f.fromGate f.aircraft
            else addAircraft ap2 { f.aircraft with location := f.fromGate })
         else ap2) ∧
    (∀ (ap2 : Airport) (g2 : Loc) (a : Aircraft),
       lookupQ (pushGateQueue ap2 g2 a).gateQueue g2 =
         some ((lookupQ ap2.gateQueue g2).getD [] ++ [a])) ∧
    (∀ a q2, q = a :: q2 → isOccupiedAt s.airport g = false →
       lookupQ (addAircraftsFromQueue s.airport).gateQueue g = some q2 ∧
       { a with location := g } ∈
         (addAircraftsFromQueue s.airport).aircrafts) ∧
    (isOccupiedAt s.airport g = true ∨ q = [] →
       lookupQ (addAircraftsFromQueue s.airport).gateQueue g = some q) ∧
    (∃ ext, lookupQ (addAircrafts s).airport.gateQueue g =
       some ((if isOccupiedAt s.airport g = false ∧ q ≠ [] then q.tail
              else q) ++ ext)) := by
  have hgq : (addAircraftsFromQueue s.airport).gateQueue =
      (addFromQueueLoop s.airport.gateQueue s.airport.aircrafts).1 := rfl
  have hac : (addAircraftsFromQueue s.airport).aircrafts =
      (addFromQueueLoop s.airport.gateQueue s.airport.aircrafts).2 := rfl
  refine ⟨rfl, fun ap2 f => rfl, fun ap2 g2 a =>
    pushGateQueue_lookup_self ap2 g2 a, ?_, ?_, ?_⟩
  · intro a q2 hq2 hocc
    subst hq2
    have hmem := lookupQ_mem _ _ _ hq
    have hocc2 : s.airport.aircrafts.any (fun x => x.location == g) = false :=
      hocc
    obtain ⟨h1, h2⟩ := addFromQueueLoop_dequeue s.airport.gateQueue
      s.airport.aircrafts g a q2 hnd hmem hocc2
    exact ⟨by rw [hgq]; exact h1, by rw [hac]; exact h2⟩
  · intro hskip
    have hmem := lookupQ_mem _ _ _ hq
    rw [hgq]
    exact addFromQueueLoop_skip s.airport.gateQueue s.airport.aircrafts g q
      hnd hmem hskip
  · have hbase : ∃ q1, lookupQ (addAircraftsFromQueue s.airport).gateQueue g =
        some q1 ∧
        q1 = (if isOccupiedAt s.airport g = false ∧ q ≠ [] then q.tail
              else q) := by
      by_cases hc : isOccupiedAt s.airport g = false ∧ q ≠ []
      · obtain ⟨a, q2, rfl⟩ :=
          List.exists_cons_of_ne_nil hc.2
        have hmem := lookupQ_mem _ _ _ hq
        obtain ⟨h1, _⟩ := addFromQueueLoop_dequeue s.airport.gateQueue
          s.airport.aircrafts g a q2 hnd hmem hc.1
        exact ⟨q2, by rw [hgq]; exact h1, by rw [if_pos hc]; rfl⟩
      · have hskip : isOccupiedAt s.airport g = true ∨ q = [] := by
          rcases hb : isOccupiedAt s.airport g with _ | _
          · right
            by_contra hne
            exact hc ⟨hb, hne⟩
          · left
            rfl
        have hmem := lookupQ_mem _ _ _ hq
        refine ⟨q, ?_, by rw [if_neg hc]⟩
        rw [hgq]
        exact addFromQueueLoop_skip s.airport.gateQueue s.airport.aircrafts
          g q hnd hmem hskip
    obtain ⟨q1, hl1, hq1⟩ := hbase
    obtain ⟨ext, hext⟩ := addFromScenario_queue_extends s.scenario.departures
      s.clock.now (get_seconds_after s.clock.now s.clock.simTime)
      (addAircraftsFromQueue s.airport) g q1 hl1
    refine ⟨ext, ?_⟩
    have : (addAircrafts s).airport.gateQueue =
        (List.foldl (admitStep s.clock.now
          (get_seconds_after s.clock.now s.clock.simTime))
          (addAircraftsFromQueue s.airport)
          s.scenario.departures).gateQueue := rfl
    rw [this, hext, hq1]

theorem admission_fifo_spec_witness :
    lookupQ (addAircraftsFromQueue sBusy.airport).gateQueue gate1 =
      some [acQueued2] ∧
    { acQueued with location := gate1 } ∈
      (addAircraftsFromQueue sBusy.airport).aircrafts :=
  (admission_fifo_spec sBusy (by decide) gate1 [acQueued, acQueued2]
    (by decide)).2.2.2.1 acQueued [acQueued2] rfl (by decide)

/-- Witness for the snapshot-isolation theorem at a concrete two-object
heap: writing through the copy's airport reference does not change what
the original engine reads. -/
theorem snapshot_isolation_witness :
    readA (writeA (delegateCopy heap0 eng0 none).1
        (delegateCopy heap0 eng0 none).2.airportRef ⟨[], [], []⟩)
      eng0.airportRef =
      readA (delegateCopy heap0 eng0 none).1 eng0.airportRef :=
  (snapshot_isolation heap0 eng0 none (by constructor <;> decide)
    (by constructor <;> rfl)).2.2.2.2.2.2.1 ⟨[], [], []⟩

end AirportSim
